import Mathlib

/-!
Shallow embedding of the notification bot in src/index.js: the quantity
formatter, the websocket feed-client event handlers, the cron matching
engine with its per-user cooldown ledger, the messenger dispatcher, and
the registration-prompt throttle.  Times are epoch milliseconds as Nat;
JS `Date.now() - t > d` on values with `t ≤ now` coincides with the
truncated Nat subtraction used here, and for `t > now` both sides are
false, so Nat subtraction is faithful throughout.
-/

/-- One stock item as delivered by the feed (`{name, quantity, emoji}`). -/
structure Item where
  name : String
  emoji : String
  quantity : Nat
deriving DecidableEq

/-- In-memory cooldown ledger (the JS `Map` from item name to epoch
millis stored in `user.lastNotified`), modelled as an insertion-ordered
association list.  The same representation serves the
`unregisteredMessageCache` map. -/
abbrev Ledger := List (String × Nat)

/-- JS `Map.get`: the value stored under the key, if any.  Keys of a JS
`Map` are unique, so the first match is the only one. -/
def ledgerGet (l : Ledger) (n : String) : Option Nat :=
  match l with
  | [] => none
  | p :: rest => if p.1 = n then some p.2 else ledgerGet rest n

/-- JS `Map.set`: replace the value under an existing key in place, else
append a fresh entry at the end. -/
def ledgerSet (l : Ledger) (n : String) (v : Nat) : Ledger :=
  match l with
  | [] => [(n, v)]
  | p :: rest => if p.1 = n then (n, v) :: rest else p :: ledgerSet rest n v

/-- Floor of the base-2 logarithm, by fuel recursion (first argument is
the fuel; callers pass the number itself, which always suffices). -/
def blog : Nat → Nat → Nat
  | 0, _ => 0
  | fuel + 1, n => if n ≤ 1 then 0 else blog fuel (n / 2) + 1

/-- IEEE-754 binary64 round-to-nearest-even quotient of `p / q`
(`q > 0`), returned as an exact dyadic rational: the pair `(m, s)`
denotes `m / 2 ^ s`.  Faithful to a JS double division whenever
`1 ≤ p / q < 2 ^ 53`, the range used by every theorem below; the JS
source divides `val` by the literals `1000` and `1000000`. -/
def ieeeQuot (p q : Nat) : Nat × Nat :=
  let k := blog (p / q) (p / q)
  let s := 52 - k
  let a := p * 2 ^ s
  let d := a / q
  let r := a % q
  let m :=
    if 2 * r < q then d
    else if q < 2 * r then d + 1
    else if d % 2 = 0 then d else d + 1
  (m, s)

/-- JS `Number.prototype.toFixed(1)` applied to the nonnegative dyadic
value `x.1 / 2 ^ x.2` (valid below `10 ^ 21`, where `toFixed` never
switches to exponential notation): the integer `n` closest to ten times
the value, ties toward the larger `n`, rendered with one decimal. -/
def toFixed1 (x : Nat × Nat) : String :=
  let a := 10 * x.1
  let p := 2 ^ x.2
  let d := a / p
  let r := a % p
  let n := if p ≤ 2 * r then d + 1 else d
  toString (n / 10) ++ "." ++ toString (n % 10)

/-- Embedding of `formatValue` (src/index.js lines 103-107): quantities
at or above one million render with an `M` suffix, at or above one
thousand with a `K` suffix, both after a `toFixed(1)` of the IEEE double
quotient; smaller values render verbatim. -/
def formatValue (val : Nat) : String :=
  if 1000000 ≤ val then "x" ++ toFixed1 (ieeeQuot val 1000000) ++ "M"
  else if 1000 ≤ val then "x" ++ toFixed1 (ieeeQuot val 1000) ++ "K"
  else "x" ++ toString val

/-- Rounding of `p / q` to one decimal by exact rational arithmetic
(round half up), following the spec's words "value/1e3 rounded to 1
decimal"; stated separately from `toFixed1` so the two can be compared. -/
def specRound1 (p q : Nat) : String :=
  let a := 10 * p
  let d := a / q
  let r := a % q
  let n := if q ≤ 2 * r then d + 1 else d
  toString (n / 10) ++ "." ++ toString (n % 10)

/-- One category line pushed onto `inStockItems`
(src/index.js line 183). -/
def fmtLine (item : Item) : String :=
  item.emoji ++ " " ++ item.name ++ ": " ++ formatValue item.quantity

/-- JS `Array.prototype.join("\n")`. -/
def joinLines : List String → String
  | [] => ""
  | [x] => x
  | x :: rest => x ++ "\n" ++ joinLines rest

/-- The notification message template (src/index.js lines 231-233); the
Manila wall-clock timestamp string is passed in as `ts`. -/
def buildMsg (userName ts : String) (lines : List String) : String :=
  "📦 Alert for " ++ userName ++ " at " ++ ts ++ ":\n\n" ++
  "Your preferred items are in stock:\n" ++ joinLines lines ++
  "\n\nCheck GAG DROP WATCH for more details!"

/-- A user's per-category watchlist field as the dynamically-typed JS
value can present it: `absent` for null/undefined (the guard
`user.seeds && ...` short-circuits), `ok` for a proper string array, and
`bad` for a malformed truthy non-array value carrying a numeric `length`
(on which `.includes` raises a TypeError). -/
inductive WatchField where
  | absent : WatchField
  | ok : List String → WatchField
  | bad : Nat → WatchField
deriving DecidableEq

/-- A user document (the mongoose `userSchema`, src/index.js lines
22-30), restricted to the fields the cron job reads.  `lastNotified` is
`none` for a missing map (the code substitutes `new Map()`). -/
structure UserDoc where
  uid : String
  userName : String
  seeds : WatchField
  gear : WatchField
  eggs : WatchField
  travelingmerchant : WatchField
  lastNotified : Option Ledger
deriving DecidableEq

/-- One feed snapshot (`stockData` after a successful message): each
category optionally carries an item list; `none` conflates a missing
category object and a missing `items` field, both of which make the
guard `stockData.seed?.items` falsy. -/
structure Stock where
  seed : Option (List Item)
  gear : Option (List Item)
  egg : Option (List Item)
  travelingmerchant : Option (List Item)
deriving DecidableEq

/-- The per-item notification decision inside each category loop
(src/index.js lines 180-182): the item must be on the watchlist, have
positive quantity, and `Date.now() - (lastNotified.get(name) || 0)` must
exceed 24 hours.  A missing entry and a stored `0` are both read back as
`0` by the JS `|| 0`. -/
def notifyDecision (watch : List String) (ledger : Ledger) (now : Nat) (item : Item) : Bool :=
  watch.contains item.name && decide (0 < item.quantity) &&
    decide (86400000 < now - ((ledgerGet ledger item.name).getD 0))

/-- Cooldown predicate transcribed from the spec's words: quantity
positive, and either no ledger entry for the name or more than 24 hours
elapsed since the stored timestamp.  Kept separate from
`notifyDecision` (the code's decision) so the two can be compared. -/
def specShouldNotify (ledger : Ledger) (now : Nat) (item : Item) : Bool :=
  decide (0 < item.quantity) &&
    match ledgerGet ledger item.name with
    | none => true
    | some t => decide (86400000 < now - t)

/-- One category's `items.forEach` body (src/index.js lines 179-187):
eligible items are appended to the pending buffer and the in-memory
ledger is marked with `now` at the moment of buffering. -/
def checkCat (watch : List String) (now : Nat) :
    List Item → List Item × Ledger → List Item × Ledger
  | [], acc => acc
  | item :: rest, acc =>
    if notifyDecision watch acc.2 now item then
      checkCat watch now rest (acc.1 ++ [item], ledgerSet acc.2 item.name now)
    else
      checkCat watch now rest acc

/-- One category guard plus loop (e.g. src/index.js lines 178-188):
`user.seeds && user.seeds.length > 0 && stockData.seed?.items`.  A falsy
or empty watch field skips the category before the store is touched; a
nonempty one dereferences the store, which raises a TypeError when the
store holds null; a malformed watch field raises a TypeError at the
first `.includes` call, hence only when the item list is nonempty. -/
def processCat (field : WatchField) (stock : Option Stock)
    (proj : Stock → Option (List Item)) (now : Nat)
    (acc : List Item × Ledger) : Except Unit (List Item × Ledger) :=
  match field with
  | WatchField.absent => Except.ok acc
  | WatchField.ok xs =>
    if 0 < xs.length then
      match stock with
      | none => Except.error ()
      | some s =>
        match proj s with
        | none => Except.ok acc
        | some items => Except.ok (checkCat xs now items acc)
    else Except.ok acc
  | WatchField.bad len =>
    if 0 < len then
      match stock with
      | none => Except.error ()
      | some s =>
        match proj s with
        | none => Except.ok acc
        | some items => if items.isEmpty then Except.ok acc else Except.error ()
    else Except.ok acc

/-- The four category checks for one user (src/index.js lines 174-227),
sharing one pending buffer and one in-memory ledger; any TypeError
propagates. -/
def processUser (user : UserDoc) (stock : Option Stock) (now : Nat) :
    Except Unit (List Item × Ledger) :=
  match processCat user.seeds stock Stock.seed now ([], user.lastNotified.getD []) with
  | Except.error e => Except.error e
  | Except.ok a1 =>
    match processCat user.gear stock Stock.gear now a1 with
    | Except.error e => Except.error e
    | Except.ok a2 =>
      match processCat user.eggs stock Stock.egg now a2 with
      | Except.error e => Except.error e
      | Except.ok a3 =>
        processCat user.travelingmerchant stock Stock.travelingmerchant now a3

/-- Embedding of `sendMessengerMessage` (src/index.js lines 35-52): the
argument is the outcome of the underlying `axios.post` (timeout,
non-2xx, network error, or success); the function's own try/catch logs
and swallows every failure, so the call always resolves. -/
def sendMessengerMessage (post : Except String Unit) : Except String Unit :=
  match post with
  | Except.ok _ => Except.ok ()
  | Except.error _ => Except.ok ()

/-- The cron callback's user loop (src/index.js lines 172-239) under the
single try/catch that wraps it: processing users in order, dispatching
one message and persisting the updated ledger for each user with a
nonempty buffer, and aborting the remainder of the loop on the first
thrown error (the catch only logs).  `delivery` gives each send's
underlying HTTP outcome, keyed by recipient uid.  `stockAt i` is the
value of the module-global `stockData` while user `i`'s categories are
checked: the checks themselves are synchronous, but the awaits on
`User.find`, the send, and `User.updateOne` let the websocket handler
reassign the global between users.  Returns the dispatched
`(uid, message)` list and the persisted `(uid, ledger)` writes. -/
def cronLoop (delivery : String → Except String Unit)
    (stockAt : Nat → Option Stock) (i : Nat) (users : List UserDoc)
    (now : Nat) (ts : String) :
    List (String × String) × List (String × Ledger) :=
  match users with
  | [] => ([], [])
  | u :: rest =>
    match processUser u (stockAt i) now with
    | Except.error _ => ([], [])
    | Except.ok (items, ledger) =>
      if items.isEmpty then cronLoop delivery stockAt (i + 1) rest now ts
      else
        match sendMessengerMessage (delivery u.uid) with
        | Except.error _ => ([], [])
        | Except.ok _ =>
          let r := cronLoop delivery stockAt (i + 1) rest now ts
          ((u.uid, buildMsg u.userName ts (items.map fmtLine)) :: r.1,
           (u.uid, ledger) :: r.2)

/-- One cron run (src/index.js lines 165-243): `stock0` is the value of
`stockData` at the initial `if (!stockData)` truthiness check; absent
means the run is a no-op.  `stockAt` gives the global's value during
each user's processing, which can differ from `stock0` because of the
`await User.find({})` and the per-user awaits. -/
def cronRunSeq (delivery : String → Except String Unit)
    (stock0 : Option Stock) (stockAt : Nat → Option Stock)
    (users : List UserDoc) (now : Nat) (ts : String) :
    List (String × String) × List (String × Ledger) :=
  match stock0 with
  | none => ([], [])
  | some _ => cronLoop delivery stockAt 0 users now ts

/-- A cron run during which the snapshot store never changes. -/
def cronRun (stock : Option Stock) (users : List UserDoc) (now : Nat)
    (ts : String) (delivery : String → Except String Unit) :
    List (String × String) × List (String × Ledger) :=
  cronRunSeq delivery stock (fun _ => stock) users now ts

/-- The registration-prompt cooldown window
(`MESSAGE_COOLDOWN = 5 * 60 * 1000`, src/index.js line 17). -/
def MESSAGE_COOLDOWN : Nat := 5 * 60 * 1000

/-- The regex `/^\d+$/`: a nonempty all-digit string, checked over the
string's character list. -/
def isNumericUid (uid : String) : Bool :=
  !uid.data.isEmpty && uid.data.all Char.isDigit

/-- Embedding of `sendRegistrationMessage` (src/index.js lines 54-96):
suppress when the cache holds a truthy timestamp younger than five
minutes (JS `if (lastSent && now - lastSent < MESSAGE_COOLDOWN)`, so a
stored `0` does not suppress); otherwise validate the uid format, and
for a valid uid send the prompt and record `now`.  Returns whether a
prompt send was attempted, with the updated cache. -/
def sendRegistrationMessage (cache : Ledger) (now : Nat) (uid : String) :
    Bool × Ledger :=
  match ledgerGet cache uid with
  | some t =>
    if t ≠ 0 ∧ now - t < MESSAGE_COOLDOWN then (false, cache)
    else if isNumericUid uid then (true, ledgerSet cache uid now)
    else (false, cache)
  | none =>
    if isNumericUid uid then (true, ledgerSet cache uid now)
    else (false, cache)

/-- Observable state of the websocket client: whether the keep-alive
interval is running, the snapshot slot `stockData`, and the delays of
the reconnect attempts scheduled so far. -/
structure ConnState where
  keepAliveActive : Bool
  stockData : Option Stock
  reconnectDelays : List Nat
deriving DecidableEq

/-- The `ws.on("error")` handler (src/index.js lines 148-151): it only
nulls `stockData`. -/
def wsOnError (s : ConnState) : ConnState :=
  { s with stockData := none }

/-- The `ws.on("close")` handler (src/index.js lines 153-158): clear the
keep-alive interval, null `stockData`, and schedule one reconnect after
3000 ms. -/
def wsOnClose (s : ConnState) : ConnState :=
  { keepAliveActive := false
    stockData := none
    reconnectDelays := s.reconnectDelays ++ [3000] }

/-! Concrete test fixtures used by counterexamples and witnesses. -/

/-- A watched in-stock item. -/
def carrot : Item := { name := "Carrot", emoji := "C", quantity := 50 }

/-- A second item, used for a fresh-cooldown suppression scenario. -/
def stick : Item := { name := "Stick", emoji := "S", quantity := 5 }

/-- The name literal of `carrot`. -/
def carrotS : String := "Carrot"

/-- The name literal of `stick`. -/
def stickS : String := "Stick"

/-- A snapshot whose seed category stocks `carrot` and `stick` and whose
gear category stocks `carrot` again. -/
def stockA : Stock :=
  { seed := some [carrot, stick]
    gear := some [carrot]
    egg := none
    travelingmerchant := none }

/-- A snapshot with no category data at all. -/
def stockB : Stock :=
  { seed := none, gear := none, egg := none, travelingmerchant := none }

/-- A run time well past 24 hours after the epoch. -/
def nowC : Nat := 1750000000000

/-- A fixed Manila timestamp string for the message template. -/
def tsS : String := "6/15/2025, 8:00:00 AM"

/-- A delivery environment in which every HTTP post succeeds. -/
def dOk : String → Except String Unit := fun _ => Except.ok ()

/-- The error detail carried by the failing delivery environment. -/
def failMsg : String := "timeout"

/-- A delivery environment in which every HTTP post fails. -/
def dFail : String → Except String Unit := fun _ => Except.error failMsg

/-- A healthy user watching Carrot in seeds, with an empty ledger. -/
def goodU : UserDoc :=
  { uid := "2"
    userName := "Bea"
    seeds := WatchField.ok [carrotS]
    gear := WatchField.absent
    eggs := WatchField.absent
    travelingmerchant := WatchField.absent
    lastNotified := none }

/-- A user whose seeds field is malformed profile data: a truthy
non-array with positive length, so the seeds check throws. -/
def badU : UserDoc :=
  { uid := "1"
    userName := "Axl"
    seeds := WatchField.bad 1
    gear := WatchField.absent
    eggs := WatchField.absent
    travelingmerchant := WatchField.absent
    lastNotified := none }

/-- A user watching Carrot in both seeds and gear, with a fresh ledger
entry for Stick. -/
def dupU : UserDoc :=
  { uid := "3"
    userName := "Cy"
    seeds := WatchField.ok [carrotS, stickS]
    gear := WatchField.ok [carrotS]
    eggs := WatchField.absent
    travelingmerchant := WatchField.absent
    lastNotified := some [(stickS, nowC)] }

/-- A user like `goodU` but with an old stored Carrot timestamp. -/
def oldU : UserDoc :=
  { uid := "4"
    userName := "Dee"
    seeds := WatchField.ok [carrotS]
    gear := WatchField.absent
    eggs := WatchField.absent
    travelingmerchant := WatchField.absent
    lastNotified := some [(carrotS, 5)] }

/-- The uid literal used by the registration-throttle scenarios. -/
def uidR : String := "123"

/-- An empty registration cache. -/
def cacheNil : Ledger := []

/-- A registration cache holding the falsy timestamp `0` for `uidR`. -/
def cacheZero : Ledger := [(uidR, 0)]

/-! Helper lemmas about the ledger map and the category loop. -/

theorem ledgerGet_set_self (l : Ledger) (n : String) (v : Nat) :
    ledgerGet (ledgerSet l n v) n = some v := by
  induction l with
  | nil => simp [ledgerGet, ledgerSet]
  | cons p rest ih =>
    by_cases hp : p.1 = n
    · simp [ledgerSet, hp, ledgerGet]
    · simp [ledgerSet, hp, ledgerGet, ih]

theorem ledgerGet_set_ne (l : Ledger) (n m : String) (v : Nat) (h : m ≠ n) :
    ledgerGet (ledgerSet l n v) m = ledgerGet l m := by
  induction l with
  | nil => simp [ledgerGet, ledgerSet, h.symm]
  | cons p rest ih =>
    by_cases hp : p.1 = n
    · have hpm : ¬p.1 = m := by rw [hp]; exact h.symm
      simp [ledgerSet, hp, ledgerGet, hpm, h.symm]
    · by_cases hpm : p.1 = m
      · simp [ledgerSet, hp, ledgerGet, hpm, h]
      · simp [ledgerSet, hp, ledgerGet, hpm, ih, h]

theorem decision_gap {watch : List String} {ledger : Ledger} {now : Nat} {item : Item}
    (hd : notifyDecision watch ledger now item = true) :
    86400000 < now - ((ledgerGet ledger item.name).getD 0) := by
  simp only [notifyDecision, Bool.and_eq_true, decide_eq_true_eq] at hd
  exact hd.2

theorem checkCat_mono (watch : List String) (now : Nat) :
    ∀ (items : List Item) (acc : List Item × Ledger) (n : String) (v : Nat),
    ledgerGet acc.2 n = some v →
    ∃ w, ledgerGet (checkCat watch now items acc).2 n = some w ∧ v ≤ w := by
  intro items
  induction items with
  | nil => intro acc n v hv; exact ⟨v, hv, le_rfl⟩
  | cons item rest ih =>
    intro acc n v hv
    by_cases hd : notifyDecision watch acc.2 now item = true
    · simp only [checkCat, if_pos hd]
      by_cases hn : n = item.name
      · have hb := decision_gap hd
        rw [← hn, hv] at hb
        simp only [Option.getD_some] at hb
        have hvle : v ≤ now := by omega
        obtain ⟨w, hw, hnw⟩ :=
          ih (acc.1 ++ [item], ledgerSet acc.2 item.name now) n now (by
            rw [hn]; exact ledgerGet_set_self acc.2 item.name now)
        exact ⟨w, hw, le_trans hvle hnw⟩
      · obtain ⟨w, hw, hnw⟩ :=
          ih (acc.1 ++ [item], ledgerSet acc.2 item.name now) n v (by
            simpa [ledgerGet_set_ne acc.2 item.name n now hn] using hv)
        exact ⟨w, hw, hnw⟩
    · simp only [checkCat, if_neg hd]
      exact ih acc n v hv

theorem checkCat_names (watch : List String) (now : Nat) :
    ∀ (items : List Item) (acc : List Item × Ledger),
    (∀ i ∈ acc.1, ledgerGet acc.2 i.name = some now) →
    (acc.1.map Item.name).Nodup →
    (∀ i ∈ (checkCat watch now items acc).1,
        ledgerGet (checkCat watch now items acc).2 i.name = some now) ∧
    ((checkCat watch now items acc).1.map Item.name).Nodup := by
  intro items
  induction items with
  | nil => intro acc h1 h2; exact ⟨h1, h2⟩
  | cons item rest ih =>
    intro acc h1 h2
    by_cases hd : notifyDecision watch acc.2 now item = true
    · have hfresh : ∀ i ∈ acc.1, ¬i.name = item.name := by
        intro i hi he
        have hget : ledgerGet acc.2 item.name = some now := by
          rw [← he]; exact h1 i hi
        have hb := decision_gap hd
        rw [hget] at hb
        simp only [Option.getD_some] at hb
        omega
      have hnotin : item.name ∉ acc.1.map Item.name := by
        intro hmem
        obtain ⟨i, hi, hin⟩ := List.mem_map.1 hmem
        exact hfresh i hi hin
      simp only [checkCat, if_pos hd]
      apply ih
      · intro i hi
        rcases List.mem_append.1 hi with hi | hi
        · rw [ledgerGet_set_ne acc.2 item.name i.name now (hfresh i hi)]
          exact h1 i hi
        · have : i = item := by simpa using hi
          subst this
          exact ledgerGet_set_self acc.2 i.name now
      · simp [List.nodup_append, h2, hnotin]
    · simp only [checkCat, if_neg hd]
      exact ih acc h1 h2

theorem checkCat_frozen (watch : List String) (now : Nat) (n : String) (t : Nat)
    (hle : now - t ≤ 86400000) :
    ∀ (items : List Item) (acc : List Item × Ledger),
    ledgerGet acc.2 n = some t → n ∉ acc.1.map Item.name →
    ledgerGet (checkCat watch now items acc).2 n = some t ∧
    n ∉ (checkCat watch now items acc).1.map Item.name := by
  intro items
  induction items with
  | nil => intro acc h1 h2; exact ⟨h1, h2⟩
  | cons item rest ih =>
    intro acc h1 h2
    by_cases hd : notifyDecision watch acc.2 now item = true
    · have hne : ¬n = item.name := by
        intro he
        have hb := decision_gap hd
        rw [← he, h1] at hb
        simp only [Option.getD_some] at hb
        omega
      simp only [checkCat, if_pos hd]
      apply ih
      · rw [ledgerGet_set_ne acc.2 item.name n now hne]
        exact h1
      · intro hmem
        rw [List.map_append] at hmem
        rcases List.mem_append.1 hmem with hmem | hmem
        · exact h2 hmem
        · have : n = item.name := by simpa using hmem
          exact hne this
    · simp only [checkCat, if_neg hd]
      exact ih acc h1 h2

theorem processCat_ok_elim {field : WatchField} {stock : Option Stock}
    {proj : Stock → Option (List Item)} {now : Nat}
    {acc acc2 : List Item × Ledger} (P : List Item × Ledger → Prop)
    (h : processCat field stock proj now acc = Except.ok acc2)
    (hacc : P acc)
    (hstep : ∀ xs items, P (checkCat xs now items acc)) : P acc2 := by
  cases field with
  | absent =>
    simp only [processCat] at h
    cases h
    exact hacc
  | ok xs =>
    simp only [processCat] at h
    split at h
    · split at h
      · simp at h
      · split at h
        · cases h; exact hacc
        · cases h; exact hstep _ _
    · cases h; exact hacc
  | bad len =>
    simp only [processCat] at h
    split at h
    · split at h
      · simp at h
      · split at h
        · cases h; exact hacc
        · split at h
          · cases h; exact hacc
          · simp at h
    · cases h; exact hacc

theorem processUser_ok_elim {user : UserDoc} {stock : Option Stock} {now : Nat}
    {items : List Item} {l2 : Ledger} (P : List Item × Ledger → Prop)
    (h : processUser user stock now = Except.ok (items, l2))
    (hacc : P ([], user.lastNotified.getD []))
    (hstep : ∀ acc, P acc → ∀ xs its, P (checkCat xs now its acc)) :
    P (items, l2) := by
  unfold processUser at h
  split at h
  next e heq1 => simp at h
  next a1 heq1 =>
    have hp1 : P a1 := processCat_ok_elim P heq1 hacc (hstep _ hacc)
    split at h
    next e heq2 => simp at h
    next a2 heq2 =>
      have hp2 : P a2 := processCat_ok_elim P heq2 hp1 (hstep _ hp1)
      split at h
      next e heq3 => simp at h
      next a3 heq3 =>
        have hp3 : P a3 := processCat_ok_elim P heq3 hp2 (hstep _ hp2)
        exact processCat_ok_elim P h hp3 (hstep _ hp3)

theorem send_always_ok (post : Except String Unit) :
    sendMessengerMessage post = Except.ok () := by
  cases post with
  | ok u => rfl
  | error e => rfl

theorem cronLoop_delivery_const (d e : String → Except String Unit)
    (stockAt : Nat → Option Stock) (now : Nat) (ts : String) :
    ∀ (users : List UserDoc) (i : Nat),
    cronLoop d stockAt i users now ts = cronLoop e stockAt i users now ts := by
  intro users
  induction users with
  | nil => intro i; rfl
  | cons u rest ih =>
    intro i
    simp only [cronLoop]
    cases processUser u (stockAt i) now with
    | error _ => rfl
    | ok pr =>
      rcases pr with ⟨items, ledger⟩
      by_cases hq : items.isEmpty = true
      · simp only [hq, if_pos, ih]
      · simp only [hq, if_neg, Bool.not_eq_true,
          send_always_ok (d u.uid), send_always_ok (e u.uid), ih]

/-- An empty pending-items/ledger accumulator, the state each user
starts a cron cycle with when `lastNotified` is missing. -/
def accE : List Item × Ledger := ([], [])

/-- C1 counterexample: at run time 0 (the epoch) with an empty ledger, a
watched in-stock item satisfies the claim's condition (quantity positive
and no ledger entry) yet the engine does not notify, because the code
reads a missing entry back as the timestamp `0` and `0 - 0` does not
exceed 24 hours. -/
theorem c1_counterexample :
    [carrotS].contains carrot.name = true ∧
    specShouldNotify ([] : Ledger) 0 carrot = true ∧
    notifyDecision [carrotS] ([] : Ledger) 0 carrot = false := by
  decide

/-- C1 (amended): for a watched item the engine notifies exactly when
`quantity > 0` and `now` minus the stored timestamp (a missing entry
counting as `0`) exceeds 24 hours; this coincides with the claim's
condition whenever `now` itself exceeds 24 hours after the epoch.  When
the decision is false no line is appended and the ledger is unchanged;
when it is true the line is appended and the entry is marked `now`. -/
theorem c1_amended (watch : List String) (now : Nat) (item : Item)
    (acc : List Item × Ledger) (hw : watch.contains item.name = true) :
    (86400000 < now →
      notifyDecision watch acc.2 now item = specShouldNotify acc.2 now item) ∧
    (notifyDecision watch acc.2 now item = false → checkCat watch now [item] acc = acc) ∧
    (notifyDecision watch acc.2 now item = true →
      checkCat watch now [item] acc = (acc.1 ++ [item], ledgerSet acc.2 item.name now)) := by
  have hmem : item.name ∈ watch := by simpa using hw
  refine ⟨?_, ?_, ?_⟩
  · intro h24
    cases hg : ledgerGet acc.2 item.name with
    | none => simp [notifyDecision, specShouldNotify, hmem, hg, h24]
    | some t => simp [notifyDecision, specShouldNotify, hmem, hg]
  · intro hfalse
    simp [checkCat, hfalse]
  · intro htrue
    simp [checkCat, htrue]

/-- C1 witness: the amended equivalence evaluated at a watched item, an
empty ledger, and a realistic run time. -/
theorem c1_witness :
    notifyDecision [carrotS] accE.2 nowC carrot = specShouldNotify accE.2 nowC carrot :=
  (c1_amended [carrotS] nowC carrot accE (by decide)).1 (by decide)

/-- C4 counterexample: with a notification recorded at `T = 1`, a run at
exactly `T + 24h` (86400001) leaves a watched in-stock item
unnotified — the code requires strictly more than 24 hours, while the
claim includes the boundary instant. -/
theorem c4_counterexample :
    [carrotS].contains carrot.name = true ∧ 0 < carrot.quantity ∧
    ledgerGet [(carrotS, 1)] carrot.name = some 1 ∧
    notifyDecision [carrotS] [(carrotS, 1)] 86400001 carrot = false := by
  decide

/-- C4 (amended): a notification about an item recorded at `t` permits
exactly one further notification at any run time `u` with `u - t`
strictly greater than 24 hours (so not at exactly `t + 24h`), provided
the item is watched and in stock; marking the ledger at `u` immediately
re-arms the cooldown, so a second check at `u` is suppressed. -/
theorem c4_amended (watch : List String) (ledger : Ledger) (item : Item) (t u : Nat)
    (hw : watch.contains item.name = true) (hq : 0 < item.quantity)
    (hl : ledgerGet ledger item.name = some t) (ht : 86400000 < u - t) :
    notifyDecision watch ledger u item = true ∧
    notifyDecision watch (ledgerSet ledger item.name u) u item = false := by
  have hmem : item.name ∈ watch := by simpa using hw
  constructor
  · simp [notifyDecision, hmem, hq, hl, ht]
  · simp [notifyDecision, ledgerGet_set_self, Nat.sub_self]

/-- C4 witness: the amended cooldown-reset behaviour at `t = 1` and
`u = t + 24h + 1`. -/
theorem c4_witness :
    notifyDecision [carrotS] [(carrotS, 1)] 86400002 carrot = true ∧
    notifyDecision [carrotS] (ledgerSet [(carrotS, 1)] carrot.name 86400002) 86400002 carrot = false :=
  c4_amended [carrotS] [(carrotS, 1)] carrot 1 86400002 (by decide) (by decide) (by decide)
    (by decide)

/-- A websocket client state with the keep-alive timer running, a
snapshot present, and no reconnect scheduled. -/
def connS : ConnState :=
  { keepAliveActive := true, stockData := some stockA, reconnectDelays := [] }

/-- C5 counterexample: on an error event the keep-alive timer keeps
running and no reconnect is scheduled, contradicting the claim that the
error handler stops the timer and schedules a 3-second reconnect. -/
theorem c5_counterexample :
    (wsOnError connS).keepAliveActive = true ∧ (wsOnError connS).reconnectDelays = [] :=
  ⟨rfl, rfl⟩

/-- C5 (amended): the close handler stops the keep-alive timer, clears
the snapshot store, and schedules exactly one reconnect after 3000 ms;
the error handler only clears the snapshot store, leaving the timer and
the reconnect schedule untouched (the subsequent close event performs
the rest). -/
theorem c5_amended (s : ConnState) :
    (wsOnClose s).keepAliveActive = false ∧
    (wsOnClose s).stockData = none ∧
    (wsOnClose s).reconnectDelays = s.reconnectDelays ++ [3000] ∧
    (wsOnError s).stockData = none ∧
    (wsOnError s).keepAliveActive = s.keepAliveActive ∧
    (wsOnError s).reconnectDelays = s.reconnectDelays :=
  ⟨rfl, rfl, rfl, rfl, rfl, rfl⟩

/-- C9 counterexample: the code formats 1150 as `x1.1K` because the IEEE
double closest to `1150 / 1000` lies below the decimal midpoint, while
exact rounding of 1.15 to one decimal gives 1.2; so the claim's
"v/1e3 rounded to 1 decimal" reading fails at 1150. -/
theorem c9_counterexample :
    formatValue 1150 = "x1.1K" ∧ specRound1 1150 1000 = "1.2" ∧
    formatValue 1150 ≠ "x" ++ specRound1 1150 1000 ++ "K" := by
  decide

/-- C9 (amended): the three anchor values format as claimed, and the
formatter follows the claimed three-way structure with the rounding
performed by `toFixed(1)` on the IEEE-754 double quotient — which can
differ from exact decimal rounding (see the 1150 counterexample). -/
theorem c9_amended (v : Nat) :
    formatValue 999 = "x999" ∧ formatValue 1500 = "x1.5K" ∧ formatValue 2300000 = "x2.3M" ∧
    (v < 1000 → formatValue v = "x" ++ toString v) ∧
    (1000 ≤ v → v < 1000000 → formatValue v = "x" ++ toFixed1 (ieeeQuot v 1000) ++ "K") ∧
    (1000000 ≤ v → formatValue v = "x" ++ toFixed1 (ieeeQuot v 1000000) ++ "M") := by
  refine ⟨by decide, by decide, by decide, ?_, ?_, ?_⟩
  · intro h
    have h1 : ¬1000000 ≤ v := by omega
    have h2 : ¬1000 ≤ v := by omega
    simp [formatValue, h1, h2]
  · intro h1 h2
    have h3 : ¬1000000 ≤ v := by omega
    simp [formatValue, h3, h1]
  · intro h1
    simp [formatValue, h1]

/-- C9 witness: the amended K branch evaluated at 5000. -/
theorem c9_witness : formatValue 5000 = "x" ++ toFixed1 (ieeeQuot 5000 1000) ++ "K" :=
  (c9_amended 5000).2.2.2.2.1 (by decide) (by decide)

/-- C2: evaluation of the matching run at the failing input.  With the
malformed user first in the batch, the single try/catch around the whole
user loop (src/index.js lines 171-242) aborts the run on that user's
TypeError: the healthy user after them receives nothing and no ledger is
persisted, although the same healthy user alone is dispatched one
message and one ledger write.  This contradicts the claim (and the
spec's isolation requirement) that every other user in the run is still
fully processed. -/
theorem c2_code_eval :
    cronRun (some stockA) [badU, goodU] nowC tsS dOk = ([], []) ∧
    cronRun (some stockA) [goodU] nowC tsS dOk =
      ([(goodU.uid, buildMsg goodU.userName tsS [fmtLine carrot])],
       [(goodU.uid, [(carrotS, nowC)])]) :=
  ⟨rfl, rfl⟩

/-- C3 counterexample: two runs that read the same present snapshot at
the initial check but see different store contents while processing the
one user produce different dispatches — a mid-run snapshot replacement
(possible at the `await User.find({})` boundary) does change what a user
is matched against, refuting the single-read claim. -/
theorem c3_counterexample :
    cronRunSeq dOk (some stockA) (fun _ => some stockA) [goodU] nowC tsS ≠
    cronRunSeq dOk (some stockA) (fun _ => some stockB) [goodU] nowC tsS := by
  decide

/-- C3 (amended): the initial read is used only as a presence check — an
absent store at the start makes the run a no-op regardless of later
store values, and for a present store the run's outcome is entirely
determined by the values re-read from the store while each user is
processed, independent of the snapshot contents seen at the initial
check. -/
theorem c3_amended :
    (∀ (d : String → Except String Unit) (stockAt : Nat → Option Stock)
        (users : List UserDoc) (now : Nat) (ts : String),
      cronRunSeq d none stockAt users now ts = ([], [])) ∧
    (∀ (d : String → Except String Unit) (a b : Stock) (stockAt : Nat → Option Stock)
        (users : List UserDoc) (now : Nat) (ts : String),
      cronRunSeq d (some a) stockAt users now ts =
        cronRunSeq d (some b) stockAt users now ts) :=
  ⟨fun _ _ _ _ _ => rfl, fun _ _ _ _ _ _ _ => rfl⟩

/-- C6: the dispatcher's send never propagates a failure (every
underlying HTTP outcome is swallowed into a success); consequently a
whole matching run is invariant under the delivery outcomes, and for a
user with a nonempty buffer the ledger write is persisted and the rest
of the batch processed no matter how the send's HTTP call fares. -/
theorem c6_dispatch_isolated :
    (∀ post : Except String Unit, sendMessengerMessage post = Except.ok ()) ∧
    (∀ (d e : String → Except String Unit) (stock0 : Option Stock)
        (stockAt : Nat → Option Stock) (users : List UserDoc) (now : Nat) (ts : String),
      cronRunSeq d stock0 stockAt users now ts = cronRunSeq e stock0 stockAt users now ts) ∧
    (∀ (d : String → Except String Unit) (stockAt : Nat → Option Stock) (i : Nat)
        (u : UserDoc) (rest : List UserDoc) (now : Nat) (ts : String)
        (items : List Item) (ledger : Ledger),
      processUser u (stockAt i) now = Except.ok (items, ledger) → items ≠ [] →
      cronLoop d stockAt i (u :: rest) now ts =
        ((u.uid, buildMsg u.userName ts (items.map fmtLine)) ::
            (cronLoop d stockAt (i + 1) rest now ts).1,
         (u.uid, ledger) :: (cronLoop d stockAt (i + 1) rest now ts).2)) := by
  refine ⟨send_always_ok, ?_, ?_⟩
  · intro d e stock0 stockAt users now ts
    cases stock0 with
    | none => rfl
    | some s =>
      simp only [cronRunSeq]
      exact cronLoop_delivery_const d e stockAt now ts users 0
  · intro d stockAt i u rest now ts items ledger h hne
    have hie : items.isEmpty = false := by
      cases items with
      | nil => exact absurd rfl hne
      | cons a l => rfl
    simp only [cronLoop, h, hie, Bool.false_eq_true, if_false, send_always_ok]

/-- C6 witness: even with every HTTP post failing, the one matched user's
ledger write is still produced by the loop. -/
theorem c6_witness :
    cronLoop dFail (fun _ => some stockA) 0 [goodU] nowC tsS =
      ((goodU.uid, buildMsg goodU.userName tsS ([carrot].map fmtLine)) ::
          (cronLoop dFail (fun _ => some stockA) 1 [] nowC tsS).1,
       (goodU.uid, [(carrotS, nowC)]) ::
          (cronLoop dFail (fun _ => some stockA) 1 [] nowC tsS).2) :=
  c6_dispatch_isolated.2.2 dFail (fun _ => some stockA) 0 goodU [] nowC tsS
    [carrot] [(carrotS, nowC)] rfl (by decide)

/-- C7 counterexample: a cache entry with the falsy timestamp `0` is
1 ms old — far younger than five minutes — yet a prompt is sent, because
the JS guard `if (lastSent && ...)` treats a stored `0` as no entry;
the claim says nothing is sent while the entry is younger than five
minutes. -/
theorem c7_counterexample :
    ledgerGet cacheZero uidR = some 0 ∧ (1 : Nat) - 0 < MESSAGE_COOLDOWN ∧
    (sendRegistrationMessage cacheZero 1 uidR).1 = true := by
  decide

/-- C7 (amended): for a valid numeric recipient id, a prompt attempt is
suppressed exactly when a nonzero cache entry younger than five minutes
exists (a stored `0` never suppresses); a sent prompt records `now` and
a suppressed one leaves the cache unchanged.  Consequently, for a first
attempt at a nonzero time: it sends, a second attempt within five
minutes of it sends nothing, and a third attempt at least five minutes
after the recorded time sends again. -/
theorem c7_amended :
    (∀ (uid : String) (cache : Ledger) (now : Nat), isNumericUid uid = true →
      (((sendRegistrationMessage cache now uid).1 = false) ↔
        (∃ t, ledgerGet cache uid = some t ∧ t ≠ 0 ∧ now - t < MESSAGE_COOLDOWN)) ∧
      ((sendRegistrationMessage cache now uid).1 = true →
        (sendRegistrationMessage cache now uid).2 = ledgerSet cache uid now) ∧
      ((sendRegistrationMessage cache now uid).1 = false →
        (sendRegistrationMessage cache now uid).2 = cache)) ∧
    (∀ (uid : String) (cache : Ledger) (n1 n2 n3 : Nat), isNumericUid uid = true →
      0 < n1 → ledgerGet cache uid = none → n2 - n1 < MESSAGE_COOLDOWN →
      MESSAGE_COOLDOWN ≤ n3 - n1 →
      (sendRegistrationMessage cache n1 uid).1 = true ∧
      (sendRegistrationMessage (sendRegistrationMessage cache n1 uid).2 n2 uid).1 = false ∧
      (sendRegistrationMessage (sendRegistrationMessage cache n1 uid).2 n3 uid).1 = true) := by
  constructor
  · intro uid cache now hv
    cases hg : ledgerGet cache uid with
    | none =>
      refine ⟨?_, ?_, ?_⟩
      · simp [sendRegistrationMessage, hg, hv]
      · intro _; simp [sendRegistrationMessage, hg, hv]
      · intro hfalse; simp [sendRegistrationMessage, hg, hv] at hfalse
    | some t =>
      by_cases hc : t ≠ 0 ∧ now - t < MESSAGE_COOLDOWN
      · refine ⟨?_, ?_, ?_⟩
        · simp only [sendRegistrationMessage, hg, if_pos hc]
          simp [hc]
        · intro htrue
          simp only [sendRegistrationMessage, hg, if_pos hc] at htrue
          simp at htrue
        · intro _
          simp only [sendRegistrationMessage, hg, if_pos hc]
      · refine ⟨?_, ?_, ?_⟩
        · simp only [sendRegistrationMessage, hg, if_neg hc, hv, if_pos]
          simp only [Bool.true_eq_false, false_iff]
          intro hex
          obtain ⟨w, hw, hw0, hwlt⟩ := hex
          cases hw
          exact hc ⟨hw0, hwlt⟩
        · intro _
          simp [sendRegistrationMessage, hg, if_neg hc, hv]
        · intro hfalse
          simp [sendRegistrationMessage, hg, if_neg hc, hv] at hfalse
  · intro uid cache n1 n2 n3 hv h0 hnone h2 h3
    have r1 : sendRegistrationMessage cache n1 uid = (true, ledgerSet cache uid n1) := by
      simp [sendRegistrationMessage, hnone, hv]
    refine ⟨by rw [r1], ?_, ?_⟩
    · rw [r1]
      have hcond : n1 ≠ 0 ∧ n2 - n1 < MESSAGE_COOLDOWN := ⟨by omega, h2⟩
      simp only [sendRegistrationMessage, ledgerGet_set_self, if_pos hcond]
    · rw [r1]
      have hcond : ¬(n1 ≠ 0 ∧ n3 - n1 < MESSAGE_COOLDOWN) := by
        intro hcmp
        omega
      simp only [sendRegistrationMessage, ledgerGet_set_self, if_neg hcond, hv, if_pos]

/-- C7 witness: the amended throttle scenario at times 100, 200 and
300100 for recipient 123. -/
theorem c7_witness :
    (sendRegistrationMessage cacheNil 100 uidR).1 = true ∧
    (sendRegistrationMessage (sendRegistrationMessage cacheNil 100 uidR).2 200 uidR).1 = false ∧
    (sendRegistrationMessage (sendRegistrationMessage cacheNil 100 uidR).2 300100 uidR).1 = true :=
  c7_amended.2 uidR cacheNil 100 200 300100 (by decide) (by decide) (by decide) (by decide)
    (by decide)

/-- C8: the cooldown ledger is monotonically non-decreasing per item
name across one user's matching pass — any entry present before the pass
is still present afterwards with a value at least as large, since the
only write marks `now`, and the guard `now - stored > 24h` forces
`stored < now`. -/
theorem c8_ledger_monotone (user : UserDoc) (stock : Option Stock) (now : Nat)
    (items : List Item) (l2 : Ledger)
    (h : processUser user stock now = Except.ok (items, l2))
    (n : String) (v : Nat) (hv : ledgerGet (user.lastNotified.getD []) n = some v) :
    ∃ w, ledgerGet l2 n = some w ∧ v ≤ w := by
  refine processUser_ok_elim (fun acc => ∃ w, ledgerGet acc.2 n = some w ∧ v ≤ w) h
    ⟨v, hv, le_rfl⟩ ?_
  intro acc hPa xs its
  obtain ⟨w, hw, hvw⟩ := hPa
  obtain ⟨w2, hw2, hww2⟩ := checkCat_mono xs now its acc n w hw
  exact ⟨w2, hw2, le_trans hvw hww2⟩

/-- C8 witness: the user with a stored Carrot timestamp 5 ends the pass
with a ledger value at least 5 (in fact the run time). -/
theorem c8_witness : ∃ w, ledgerGet [(carrotS, nowC)] carrotS = some w ∧ 5 ≤ w :=
  c8_ledger_monotone oldU (some stockA) nowC [carrot] [(carrotS, nowC)] rfl carrotS 5 rfl

/-- C10: within one user's matching pass the buffered items carry
pairwise distinct names — a ledger entry is written the moment a line is
buffered and the shared ledger then suppresses every later
identically-named item in any category — and any name whose stored
timestamp is within 24 hours of the run time is never buffered in any
category. -/
theorem c10_one_line_per_name (user : UserDoc) (stock : Option Stock) (now : Nat)
    (items : List Item) (l2 : Ledger)
    (h : processUser user stock now = Except.ok (items, l2)) :
    (items.map Item.name).Nodup ∧
    (∀ (n : String) (t : Nat), ledgerGet (user.lastNotified.getD []) n = some t →
      now - t ≤ 86400000 → n ∉ items.map Item.name) := by
  constructor
  · have hP := processUser_ok_elim
      (fun acc => (∀ i ∈ acc.1, ledgerGet acc.2 i.name = some now) ∧
        (acc.1.map Item.name).Nodup) h
      ⟨by intro i hi; simp at hi, by simp⟩
      (fun acc hPa xs its => checkCat_names xs now its acc hPa.1 hPa.2)
    exact hP.2
  · intro n t hv hle
    have hP := processUser_ok_elim
      (fun acc => ledgerGet acc.2 n = some t ∧ n ∉ acc.1.map Item.name) h
      ⟨hv, by simp⟩
      (fun acc hPa xs its => checkCat_frozen xs now n t hle its acc hPa.1 hPa.2)
    exact hP.2

/-- C10 witness: the user watching Carrot in both seeds and gear (with
Carrot stocked in both) gets a single Carrot line, and the fresh Stick
entry keeps Stick out of the buffer. -/
theorem c10_witness :
    (List.map Item.name [carrot]).Nodup ∧ stickS ∉ List.map Item.name [carrot] := by
  have hc := c10_one_line_per_name dupU (some stockA) nowC [carrot]
      [(stickS, nowC), (carrotS, nowC)] rfl
  exact ⟨hc.1, hc.2 stickS nowC rfl (by omega)⟩
